import Mathlib

/-!
Shallow embedding of the support/resistance engine of
`OOOpen/wrangler/supports.py`, together with theorems settling the
spec claims about it.

Modelling conventions:
* A trading bar is a record of a date (an integer timestamp, only its
  ordering matters), the `low`, `high`, `close` prices and the `volume`,
  all rationals.
* pandas DataFrames become Lists of rows; boolean matrices become
  functions of (row data, column position); column order is the order of
  the bars in the input list.
* `rolling(3, center=True).agg(f).fillna(0)` becomes a direct 3-window
  test that is `false` at the edges.
-/

namespace OOOpen

/-- One trading day of one symbol (`symbol` is irrelevant to the claims). -/
structure Bar where
  date : Int
  low : Rat
  high : Rat
  close : Rat
  volume : Rat
deriving Repr, DecidableEq

/-- `_get_sup_func` / `_get_res_func` applied to the centered 3-window of
`vals` at position `i`: `vals[i-1] > vals[i] < vals[i+1]` for supports,
the mirrored strict inequality for resistances.  Positions without a full
window (the edges, via `fillna(0)`) are `false`. -/
def isExtremum (vals : List Rat) (resistances : Bool) (i : Nat) : Bool :=
  match i with
  | 0 => false
  | Nat.succ j =>
    match vals[j]?, vals[j+1]?, vals[j+2]? with
    | some a, some b, some c =>
        if resistances then decide (a < b) && decide (c < b)
        else decide (b < a) && decide (b < c)
    | _, _, _ => false

/-- `_get_days`: the (positions of the) rows of `x` kept by the boolean
mask built from the rolling 3-window. -/
def getDaysIdx (vals : List Rat) (resistances : Bool) : List Nat :=
  (List.range vals.length).filter (fun i => isExtremum vals resistances i)

/-- Support-candidate positions of a bar series (extrema of the `low` column). -/
def supIdxs (data : List Bar) : List Nat :=
  getDaysIdx (data.map Bar.low) false

/-- Resistance-candidate positions of a bar series (extrema of the `high` column). -/
def resIdxs (data : List Bar) : List Nat :=
  getDaysIdx (data.map Bar.high) true

/-- Spec-level reading of the detector condition: both neighbours are
present and the strict inequalities hold. -/
def ExtremumSpec (vals : List Rat) (resistances : Bool) (i : Nat) : Prop :=
  ∃ a b c, i ≠ 0 ∧ vals[i - 1]? = some a ∧ vals[i]? = some b ∧
    vals[i + 1]? = some c ∧
    (if resistances then a < b ∧ c < b else b < a ∧ b < c)

theorem isExtremum_succ (vals : List Rat) (r : Bool) (j : Nat) :
    isExtremum vals r (j + 1) =
      match vals[j]?, vals[j+1]?, vals[j+2]? with
      | some a, some b, some c =>
          if r then decide (a < b) && decide (c < b)
          else decide (b < a) && decide (b < c)
      | _, _, _ => false := rfl

theorem isExtremum_iff (vals : List Rat) (r : Bool) (i : Nat) :
    isExtremum vals r i = true ↔ ExtremumSpec vals r i := by
  constructor
  · intro h
    match i with
    | 0 => simp [isExtremum] at h
    | Nat.succ j =>
      rw [isExtremum_succ] at h
      rcases ha : vals[j]? with _ | a <;> rw [ha] at h
      · simp at h
      rcases hb : vals[j+1]? with _ | b <;> rw [hb] at h
      · simp at h
      rcases hc : vals[j+2]? with _ | c <;> rw [hc] at h
      · simp at h
      refine ⟨a, b, c, by simp, by simpa using ha, hb, hc, ?_⟩
      cases r <;> simp_all
  · rintro ⟨a, b, c, hi, ha, hb, hc, hlt⟩
    match i with
    | 0 => exact absurd rfl hi
    | Nat.succ j =>
      simp only [Nat.succ_sub_one] at ha
      rw [isExtremum_succ, ha, hb, hc]
      cases r <;> simp_all

theorem isExtremum_zero (vals : List Rat) (r : Bool) :
    isExtremum vals r 0 = false := rfl

theorem isExtremum_last (vals : List Rat) (r : Bool) :
    isExtremum vals r (vals.length - 1) = false := by
  match h : vals.length - 1 with
  | 0 => simp [isExtremum]
  | Nat.succ j =>
    show isExtremum vals r (j + 1) = false
    rw [isExtremum_succ]
    have hlen : vals.length = j + 2 := by omega
    have : vals[j + 2]? = none := by
      rw [List.getElem?_eq_none_iff]; omega
    rw [this]
    rcases vals[j]? with _ | a <;> rcases vals[j+1]? with _ | b <;> simp

theorem getDaysIdx_short (vals : List Rat) (r : Bool) (h : vals.length < 3) :
    getDaysIdx vals r = [] := by
  unfold getDaysIdx
  rw [List.filter_eq_nil_iff]
  intro i hi
  rw [List.mem_range] at hi
  simp only [Bool.not_eq_true]
  match i with
  | 0 => simp [isExtremum]
  | Nat.succ j =>
    show isExtremum vals r (j + 1) = false
    rw [isExtremum_succ]
    have : vals[j + 2]? = none := by
      rw [List.getElem?_eq_none_iff]; omega
    rw [this]
    rcases vals[j]? with _ | a <;> rcases vals[j+1]? with _ | b <;> simp

/-- Claim C7: a bar is flagged as a candidate iff both neighbours are present
and the strict 3-window inequality holds (mirrored for resistances); ties
never qualify; the first and last bar are never candidates; a series
shorter than 3 bars yields an empty candidate set. -/
theorem extremum_detector_correct (vals : List Rat) (r : Bool) :
    (∀ i, isExtremum vals r i = true ↔ ExtremumSpec vals r i) ∧
    isExtremum vals r 0 = false ∧
    isExtremum vals r (vals.length - 1) = false ∧
    (vals.length < 3 → getDaysIdx vals r = []) := by
  exact ⟨fun i => isExtremum_iff vals r i, isExtremum_zero vals r,
    isExtremum_last vals r, getDaysIdx_short vals r⟩

/-- Witness for C7: on lows `[10, 8, 9]` the middle bar is a support
candidate, the edges are not, and the 2-bar prefix has no candidates. -/
theorem extremum_detector_correct_witness :
    isExtremum [(10 : Rat), 8, 9] false 1 = true ∧
    isExtremum [(10 : Rat), 8, 9] false 0 = false ∧
    getDaysIdx [(10 : Rat), 8] false = [] := by
  refine ⟨?_, ?_, ?_⟩
  · exact (extremum_detector_correct [(10 : Rat), 8, 9] false).1 1 |>.mpr
      ⟨10, 8, 9, by simp, rfl, rfl, rfl, by norm_num⟩
  · exact (extremum_detector_correct [(10 : Rat), 8, 9] false).2.1
  · exact (extremum_detector_correct [(10 : Rat), 8] false).2.2.2 (by simp)

instance : Inhabited Bar := ⟨⟨0, 0, 0, 0, 0⟩⟩

/-- One row of a survival computation (`sups` in `surviving_days`): the
extremum's creation date and its reference value (`low` for supports,
`high` for resistances). -/
structure Ext where
  date : Int
  ref : Rat
deriving Repr, DecidableEq

/-- `_get_compatible_dates` cell: `difdates < 0`, i.e. the bar is strictly
later than the extremum's creation day. -/
def compatible (e : Ext) (b : Bar) : Bool := decide (e.date < b.date)

/-- `booldif` cell of `surviving_days`:
`((-1)**resistances) * ((ref - close) / ref) < thresh`. -/
def safeDay (e : Ext) (b : Bar) (t : Rat) (r : Bool) : Bool :=
  decide ((if r then (-1 : Rat) else 1) * ((e.ref - b.close) / e.ref) < t)

/-- One column factor of the cumulative product in `surviving_days`:
`logical_or(invert(compa), logical_and(compa, booldif))`. -/
def survStep (e : Ext) (t : Rat) (r : Bool) (b : Bar) : Bool :=
  !compatible e b || (compatible e b && safeDay e b t r)

/-- `cumprod(axis=1)` through column `j` (inclusive) of the `survStep` row. -/
def cumSafe (e : Ext) (data : List Bar) (t : Rat) (r : Bool) (j : Nat) : Bool :=
  (data.take (j+1)).all (survStep e t r)

/-- The final `alive` cell of `surviving_days`:
`logical_and(compa, cumprod... )` at column `j`. -/
def aliveCell (e : Ext) (data : List Bar) (t : Rat) (r : Bool) (j : Nat) : Bool :=
  match data[j]? with
  | none => false
  | some bj => compatible e bj && cumSafe e data t r j

/-- `breakers` cell: `logical_and(invert(alive), compa)` at column `j`. -/
def breakerCell (e : Ext) (data : List Bar) (t : Rat) (r : Bool) (j : Nat) : Bool :=
  match data[j]? with
  | none => false
  | some bj => !aliveCell e data t r j && compatible e bj

/-- `breakers[breakers.any(axis=1)].idxmax(axis=1)` for one row: the first
column whose `breakers` cell is true, if any (pandas `idxmax` on a boolean
row returns the first maximal, i.e. the first `True`). -/
def breaker (e : Ext) (data : List Bar) (t : Rat) (r : Bool) : Option Nat :=
  (List.range data.length).find? (breakerCell e data t r)

/-- `age = sdays.sum(axis = 1)` for one row: the number of alive columns. -/
def age (e : Ext) (data : List Bar) (t : Rat) (r : Bool) : Nat :=
  ((List.range data.length).filter (aliveCell e data t r)).length

/-- The `ended = sbreakers.notna()` column after `DataFrame.assign`
alignment: rows with a breach day get `True`; rows absent from the
filtered breaker series get a missing value (pandas `NaN`), modelled as
`none`. -/
def endedFlag (e : Ext) (data : List Bar) (t : Rat) (r : Bool) : Option Bool :=
  (breaker e data t r).map (fun _ => true)

/-- The `enday = id_to_date(sbreakers)` column: the date of the breach
column, missing (`NaN`, modelled `none`) for rows without a breach. -/
def endDay (e : Ext) (data : List Bar) (t : Rat) (r : Bool) : Option Int :=
  (breaker e data t r).bind (fun j => (data[j]?).map Bar.date)

/-- The support rows fed into `surviving_days` by `get_supports_resistances`:
each support candidate's date and `low`. -/
def supExts (data : List Bar) : List Ext :=
  (supIdxs data).map (fun i => ⟨(data.getD i default).date, (data.getD i default).low⟩)

/-- The resistance rows fed into `surviving_days`: date and `high`. -/
def resExts (data : List Bar) : List Ext :=
  (resIdxs data).map (fun i => ⟨(data.getD i default).date, (data.getD i default).high⟩)

/-- Spec-level breach-by-day-`j`-inclusive predicate: some bar at a
position `k ≤ j`, strictly later than the creation day, closed at least
`threshold` below the reference value (above, for a resistance). -/
def BreachedBy (e : Ext) (data : List Bar) (t : Rat) (r : Bool) (j : Nat) : Prop :=
  ∃ k ∈ List.range (j+1), k < data.length ∧
    e.date < (data.getD k default).date ∧
    t ≤ (if r then (data.getD k default).close - e.ref
         else e.ref - (data.getD k default).close) / e.ref

instance (e : Ext) (data : List Bar) (t : Rat) (r : Bool) (j : Nat) :
    Decidable (BreachedBy e data t r j) := by
  unfold BreachedBy; infer_instance

/-- Spec-level alive predicate (with the compatibility made strict, as the
code computes it): bar `j` exists, is strictly later than the creation
day, and no breach has occurred by day `j` inclusive. -/
def AliveSpec (e : Ext) (data : List Bar) (t : Rat) (r : Bool) (j : Nat) : Prop :=
  j < data.length ∧ e.date < (data.getD j default).date ∧ ¬ BreachedBy e data t r j

instance (e : Ext) (data : List Bar) (t : Rat) (r : Bool) (j : Nat) :
    Decidable (AliveSpec e data t r j) := by
  unfold AliveSpec; infer_instance

theorem safeDay_iff (e : Ext) (b : Bar) (t : Rat) (r : Bool) :
    safeDay e b t r = true ↔
      (if r then b.close - e.ref else e.ref - b.close) / e.ref < t := by
  cases r
  · simp [safeDay]
  · simp only [safeDay, if_true, decide_eq_true_eq]
    rw [neg_one_mul, ← neg_div, neg_sub]

theorem cumSafe_iff (e : Ext) (data : List Bar) (t : Rat) (r : Bool) (j : Nat) :
    cumSafe e data t r j = true ↔
      ∀ k, k ≤ j → k < data.length →
        e.date < (data.getD k default).date →
        safeDay e (data.getD k default) t r = true := by
  unfold cumSafe
  rw [List.all_eq_true]
  constructor
  · intro h k hkj hkl hdate
    have hget : (data.take (j+1))[k]? = some (data.getD k default) := by
      rw [List.getElem?_take, if_pos (by omega), List.getD_eq_getElem _ _ hkl,
        List.getElem?_eq_some]
      exact ⟨hkl, rfl⟩
    have hmem : data.getD k default ∈ data.take (j+1) :=
      List.mem_iff_getElem?.mpr ⟨k, hget⟩
    have hstep := h _ hmem
    unfold survStep at hstep
    have hc : compatible e (data.getD k default) = true := by
      unfold compatible; exact decide_eq_true hdate
    rw [hc] at hstep
    simpa using hstep
  · intro h b hb
    obtain ⟨k, hk⟩ := List.mem_iff_getElem?.mp hb
    rw [List.getElem?_take] at hk
    by_cases hkj : k < j + 1
    · rw [if_pos hkj] at hk
      have hkl : k < data.length := by
        rw [List.getElem?_eq_some] at hk; exact hk.1
      have hbk : data.getD k default = b := by
        rw [List.getD_eq_getElem _ _ hkl]
        rw [List.getElem?_eq_some] at hk
        exact hk.2
      unfold survStep
      cases hc : compatible e b
      · simp
      · have hdate : e.date < b.date := by simpa [compatible] using hc
        have := h k (by omega) hkl (by rw [hbk]; exact hdate)
        rw [hbk] at this
        simp [this]
    · rw [if_neg hkj] at hk
      exact absurd hk (by simp)

theorem aliveCell_iff (e : Ext) (data : List Bar) (t : Rat) (r : Bool) (j : Nat) :
    aliveCell e data t r j = true ↔ AliveSpec e data t r j := by
  unfold aliveCell AliveSpec
  cases hj : data[j]? with
  | none =>
    have : ¬ j < data.length := by
      have := List.getElem?_eq_none_iff.mp hj; omega
    simp [this]
  | some bj =>
    have hjl : j < data.length := by
      rw [List.getElem?_eq_some] at hj; exact hj.1
    have hbj : data.getD j default = bj := by
      rw [List.getD_eq_getElem _ _ hjl]
      rw [List.getElem?_eq_some] at hj; exact hj.2
    rw [Bool.and_eq_true, cumSafe_iff]
    constructor
    · rintro ⟨hc, hsafe⟩
      refine ⟨hjl, by rw [hbj]; exact of_decide_eq_true hc, ?_⟩
      rintro ⟨k, hkr, hkl, hkdate, hkdist⟩
      rw [List.mem_range] at hkr
      have := hsafe k (by omega) hkl hkdate
      rw [safeDay_iff] at this
      exact absurd hkdist (by push_neg; exact this)
    · rintro ⟨-, hdate, hnb⟩
      rw [hbj] at hdate
      refine ⟨by unfold compatible; exact decide_eq_true hdate, ?_⟩
      intro k hkj hkl hkdate
      rw [safeDay_iff]
      by_contra hge
      push_neg at hge
      exact hnb ⟨k, List.mem_range.mpr (by omega), hkl, hkdate, hge⟩

/-- Example series: dates `0 < 1 < 2`, lows `10, 8, 9` (support candidate
at position 1 with reference value 8), closes that never endanger it. -/
def exBarsA : List Bar :=
  [⟨0, 10, 11, 9, 1⟩, ⟨1, 8, 9, 17/2, 1⟩, ⟨2, 9, 10, 43/5, 1⟩]

/-- Example series with a breach: the close `7` on day 2 is more than 1 %
below the day-1 support's reference value 8. -/
def exBarsB : List Bar :=
  [⟨0, 10, 11, 9, 1⟩, ⟨1, 8, 9, 17/2, 1⟩, ⟨2, 9, 10, 7, 1⟩, ⟨3, 9, 10, 9, 1⟩]

/-- Claim C1 (amended): the alive cell is true iff the bar is *strictly
later* than the extremum's creation day and no breach has occurred by that
day inclusive — the creation day itself is never alive (`difdates < 0` is
strict) — and the age is the count of such strictly-later unbroken days,
excluding the creation day. -/
theorem alive_age_characterisation (e : Ext) (data : List Bar) (t : Rat) (r : Bool) :
    (∀ j, aliveCell e data t r j = true ↔ AliveSpec e data t r j) ∧
    age e data t r =
      ((List.range data.length).filter
        (fun j => decide (AliveSpec e data t r j))).length := by
  refine ⟨aliveCell_iff e data t r, ?_⟩
  unfold age
  congr 1
  apply List.filter_congr
  intro j _
  apply Bool.coe_iff_coe.mp
  rw [decide_eq_true_eq]
  exact aliveCell_iff e data t r j

/-- Counterexample to C1 as stated: for the engine's (unique) support row
of `exBarsA` — created on day 1, never breached — the creation day itself
is *not* marked alive (`_get_compatible_dates` uses the strict `difdates < 0`),
and the age is 1 (day 2 only), not the creation-day-inclusive count 2. -/
theorem alive_creation_day_not_alive :
    supExts exBarsA = [⟨1, 8⟩] ∧
    (exBarsA.getD 1 default).date = 1 ∧
    ¬ BreachedBy ⟨1, 8⟩ exBarsA (1/100) false 1 ∧
    aliveCell ⟨1, 8⟩ exBarsA (1/100) false 1 = false ∧
    age ⟨1, 8⟩ exBarsA (1/100) false = 1 := by
  have a0 : aliveCell ⟨1, 8⟩ exBarsA (1/100) false 0 = false := by
    norm_num [aliveCell, exBarsA, cumSafe, survStep, safeDay, compatible]
  have a1 : aliveCell ⟨1, 8⟩ exBarsA (1/100) false 1 = false := by
    norm_num [aliveCell, exBarsA, cumSafe, survStep, safeDay, compatible]
  have a2 : aliveCell ⟨1, 8⟩ exBarsA (1/100) false 2 = true := by
    norm_num [aliveCell, exBarsA, cumSafe, survStep, safeDay, compatible]
  refine ⟨by decide, by decide, ?_, a1, ?_⟩
  · norm_num [BreachedBy, (show List.range 2 = [0, 1] from rfl), exBarsA]
  · unfold age
    rw [(show List.range exBarsA.length = [0, 1, 2] from rfl),
      List.filter_cons, List.filter_cons, List.filter_cons, a0, a1, a2]
    simp

/-- Claim C3 (amended): restricted to compatible columns (bars strictly
later than the creation day) the alive state is absorbing — if a
compatible bar `j` is not alive, then no bar at or after `j` is alive. -/
theorem alive_absorbing (e : Ext) (data : List Bar) (t : Rat) (r : Bool)
    (j j' : Nat) (bj : Bar) (hjj' : j ≤ j') (hbj : data[j]? = some bj)
    (hc : compatible e bj = true) (hdead : aliveCell e data t r j = false) :
    aliveCell e data t r j' = false := by
  have hcs : cumSafe e data t r j = false := by
    unfold aliveCell at hdead
    rw [hbj] at hdead
    simp only [hc, Bool.true_and] at hdead
    exact hdead
  have hcs' : cumSafe e data t r j' = false := by
    cases h' : cumSafe e data t r j' with
    | false => rfl
    | true =>
      exfalso
      rw [Bool.eq_false_iff] at hcs
      apply hcs
      rw [cumSafe_iff] at h' ⊢
      intro k hk hkl hkd
      exact h' k (le_trans hk hjj') hkl hkd
  unfold aliveCell
  rcases h' : data[j']? with _ | bj'
  · rfl
  · rw [hcs']
    simp

/-- Witness for the amended C3: in `exBarsB` the day-1 support is breached
on day 2 (close 7 is more than 1 % below 8), so day 3 is dead too. -/
theorem alive_absorbing_witness :
    aliveCell ⟨1, 8⟩ exBarsB (1/100) false 3 = false := by
  have hdead : aliveCell ⟨1, 8⟩ exBarsB (1/100) false 2 = false := by
    norm_num [aliveCell, exBarsB, cumSafe, survStep, safeDay, compatible]
  exact alive_absorbing ⟨1, 8⟩ exBarsB (1/100) false 2 3 ⟨2, 9, 10, 7, 1⟩
    (by omega) (by decide) (by decide) hdead

/-- Counterexample to C3 as stated: for the engine's support row of
`exBarsA`, `alive` is false on day 0 (before creation) yet true on the
later day 2 — the row is not globally "once false, always false". -/
theorem alive_resurrects_after_creation :
    supExts exBarsA = [⟨1, 8⟩] ∧
    aliveCell ⟨1, 8⟩ exBarsA (1/100) false 0 = false ∧
    aliveCell ⟨1, 8⟩ exBarsA (1/100) false 2 = true ∧
    (exBarsA.getD 0 default).date < (exBarsA.getD 2 default).date := by
  refine ⟨by decide, ?_, ?_, by decide⟩
  · norm_num [aliveCell, exBarsA, cumSafe, survStep, safeDay, compatible]
  · norm_num [aliveCell, exBarsA, cumSafe, survStep, safeDay, compatible]

theorem range_find?_eq_some (p : Nat → Bool) (n j : Nat) :
    (List.range n).find? p = some j ↔
      p j = true ∧ j < n ∧ ∀ k < j, p k = false := by
  induction n generalizing j with
  | zero => simp
  | succ n ih =>
    rw [List.range_succ, List.find?_append]
    cases h : (List.range n).find? p with
    | some a =>
      rw [ih] at h
      rw [Option.or_some, Option.some.injEq]
      constructor
      · rintro rfl
        exact ⟨h.1, by omega, h.2.2⟩
      · rintro ⟨hpj, -, hmin⟩
        rcases lt_trichotomy a j with hlt | heq | hgt
        · exact absurd h.1 (by rw [hmin a hlt]; simp)
        · exact heq
        · exact absurd hpj (by rw [h.2.2 j hgt]; simp)
    | none =>
      rw [List.find?_eq_none] at h
      rw [Option.none_or]
      cases hpn : p n with
      | true =>
        have : List.find? p [n] = some n := by simp [List.find?, hpn]
        rw [this, Option.some.injEq]
        constructor
        · rintro rfl
          refine ⟨hpn, by omega, ?_⟩
          intro k hk
          have := h k (List.mem_range.mpr hk)
          simpa using this
        · rintro ⟨hpj, hjn, hmin⟩
          by_contra hne
          have hjn' : j < n := by omega
          have := h j (List.mem_range.mpr hjn')
          simp [hpj] at this
      | false =>
        have : List.find? p [n] = none := by simp [List.find?, hpn]
        rw [this]
        simp only [false_iff, reduceCtorEq]
        rintro ⟨hpj, hjn, -⟩
        rcases Nat.lt_succ_iff_lt_or_eq.mp hjn with hlt | rfl
        · have := h j (List.mem_range.mpr hlt)
          simp [hpj] at this
        · simp [hpn] at hpj

theorem breakerCell_lt (e : Ext) (data : List Bar) (t : Rat) (r : Bool)
    (j : Nat) (h : breakerCell e data t r j = true) : j < data.length := by
  unfold breakerCell at h
  rcases hj : data[j]? with _ | bj
  · rw [hj] at h; simp at h
  · rw [List.getElem?_eq_some] at hj
    exact hj.1

theorem breakerCell_of_ge (e : Ext) (data : List Bar) (t : Rat) (r : Bool)
    (j : Nat) (h : data.length ≤ j) : breakerCell e data t r j = false := by
  unfold breakerCell
  rw [List.getElem?_eq_none_iff.mpr h]

/-- Claim C4 (amended): the breach cell holds exactly at compatible columns
that are not alive; the reported breach day is the *first* such column;
`breaker = none` exactly when no such column exists, and in that case both
`enday` and the `ended` flag are *missing* (pandas `NaN` from `assign`
alignment), not the boolean `False`. -/
theorem breaker_first_characterisation (e : Ext) (data : List Bar) (t : Rat) (r : Bool) :
    (∀ j, breakerCell e data t r j = true ↔
      (∃ bj, data[j]? = some bj ∧ e.date < bj.date ∧
        aliveCell e data t r j = false)) ∧
    (∀ j, breaker e data t r = some j ↔
      (breakerCell e data t r j = true ∧ ∀ k < j, breakerCell e data t r k = false)) ∧
    (breaker e data t r = none ↔ ∀ j, breakerCell e data t r j = false) ∧
    (breaker e data t r = none →
      endDay e data t r = none ∧ endedFlag e data t r = none) := by
  refine ⟨?_, ?_, ?_, ?_⟩
  · intro j
    unfold breakerCell
    rcases hj : data[j]? with _ | bj
    · simp
    · rw [Bool.and_eq_true, Bool.not_eq_true']
      constructor
      · rintro ⟨hdead, hcomp⟩
        exact ⟨bj, rfl, of_decide_eq_true hcomp, hdead⟩
      · rintro ⟨bj', hbj', hdate, hdead⟩
        rw [Option.some.injEq] at hbj'
        subst hbj'
        exact ⟨hdead, decide_eq_true hdate⟩
  · intro j
    unfold breaker
    rw [range_find?_eq_some (breakerCell e data t r) data.length j]
    constructor
    · rintro ⟨hpj, -, hmin⟩
      exact ⟨hpj, hmin⟩
    · rintro ⟨hpj, hmin⟩
      exact ⟨hpj, breakerCell_lt e data t r j hpj, hmin⟩
  · unfold breaker
    rw [List.find?_eq_none]
    constructor
    · intro h j
      by_cases hj : j < data.length
      · have := h j (List.mem_range.mpr hj)
        simpa using this
      · exact breakerCell_of_ge e data t r j (by omega)
    · intro h j _
      rw [h j]
      simp
  · intro h
    unfold endDay endedFlag
    rw [h]
    exact ⟨rfl, rfl⟩

theorem breaker_none_exBarsA :
    breaker ⟨1, 8⟩ exBarsA (1/100) false = none := by
  unfold breaker
  rw [List.find?_eq_none]
  intro x hx
  rw [(show List.range exBarsA.length = [0, 1, 2] from rfl)] at hx
  simp only [Bool.not_eq_true]
  fin_cases hx <;>
    norm_num [breakerCell, aliveCell, exBarsA, cumSafe, survStep, safeDay, compatible]

/-- Witness for the amended C4: the day-1 support of `exBarsA` is never
breached, so its end day and ended flag are both missing. -/
theorem breaker_first_characterisation_witness :
    endDay ⟨1, 8⟩ exBarsA (1/100) false = none ∧
    endedFlag ⟨1, 8⟩ exBarsA (1/100) false = none :=
  (breaker_first_characterisation ⟨1, 8⟩ exBarsA (1/100) false).2.2.2
    breaker_none_exBarsA

/-- Counterexample to C4 as stated: the never-breached day-1 support of
`exBarsA` has `ended = NaN` (missing, modelled `none`), which is not the
boolean `False` the claim asserts. -/
theorem ended_flag_is_missing_not_false :
    supExts exBarsA = [⟨1, 8⟩] ∧
    breaker ⟨1, 8⟩ exBarsA (1/100) false = none ∧
    endedFlag ⟨1, 8⟩ exBarsA (1/100) false = none ∧
    endedFlag ⟨1, 8⟩ exBarsA (1/100) false ≠ some false := by
  have h : endedFlag ⟨1, 8⟩ exBarsA (1/100) false = none := by
    unfold endedFlag
    rw [breaker_none_exBarsA]
    rfl
  exact ⟨by decide, breaker_none_exBarsA, h, by rw [h]; simp⟩

/-- `close_days` cell for extremum row `e` and column `j`, as the source
computes it: the returned matrix is
`surviving_days[compare.index] & (valdif < thresh)` where
`valdif = abs(subtract.outer(ref, comp)) / ref[:, None]`.  The local
extremum columns (`pbreachers`) and their compatible-dates matrix are
computed by the source but never applied to this result. -/
def closeCell (e : Ext) (data : List Bar) (t : Rat) (r : Bool) (j : Nat) : Bool :=
  match data[j]? with
  | none => false
  | some bj =>
      aliveCell e data t r j && decide (|e.ref - bj.close| / e.ref < t)

/-- Example series for the close matrix: the day-1 support (reference 8)
is tested on day 2 (close `8.05`, within 1 %), but day 2 is *not* a local
extremum of the close column in either direction (closes `9, 8.5, 8.05, 7.9`
are strictly falling around it). -/
def exBarsC : List Bar :=
  [⟨0, 10, 11, 9, 1⟩, ⟨1, 8, 9, 17/2, 1⟩, ⟨2, 9, 10, 161/20, 1⟩,
   ⟨3, 79/10, 10, 79/10, 1⟩]

/-- Claim C2 (amended): the close matrix imposes *no* restriction to
opposite-polarity local-extremum columns (the `pbreachers` filter is dead
code): `close[i, j]` is true iff bar `j` exists, extremum `i` is alive at
`j`, and `j`'s close lies within threshold normalised absolute distance of
`i`'s reference value. -/
theorem close_cell_characterisation (e : Ext) (data : List Bar) (t : Rat)
    (r : Bool) (j : Nat) :
    closeCell e data t r j = true ↔
      ∃ bj, data[j]? = some bj ∧ AliveSpec e data t r j ∧
        |e.ref - bj.close| / e.ref < t := by
  unfold closeCell
  cases hj : data[j]? with
  | none => simp
  | some bj =>
    rw [Bool.and_eq_true, decide_eq_true_eq, aliveCell_iff]
    constructor
    · rintro ⟨halive, hdist⟩
      exact ⟨bj, rfl, halive, hdist⟩
    · rintro ⟨bj', hbj', halive, hdist⟩
      rw [Option.some.injEq] at hbj'
      subst hbj'
      exact ⟨halive, hdist⟩

unseal Rat.inv Rat.mul Rat.sub Rat.add in
/-- Counterexample to C2 as stated: in `exBarsC` the close matrix of the
day-1 support is true at column 2 even though bar 2 is not a local
extremum of the close column of either polarity (in particular not the
local maximum the claim requires for a support). -/
theorem close_true_on_non_extremum_column :
    supExts exBarsC = [⟨1, 8⟩] ∧
    closeCell ⟨1, 8⟩ exBarsC (1/100) false 2 = true ∧
    isExtremum (exBarsC.map Bar.close) true 2 = false ∧
    isExtremum (exBarsC.map Bar.close) false 2 = false := by decide

/-- The close matrix payload of `close_days` for given extremum rows, a
given alive matrix `surv`, and the days of `compare`:
`surviving_days[compare.index] & (valdif < thresh)`. -/
def closeMatrix (rows : List Ext) (surv : List (List Bool)) (compare : List Bar)
    (t : Rat) : List (List Bool) :=
  (rows.zip surv).map (fun p =>
    (List.range compare.length).map (fun j =>
      (p.2.getD j false) &&
        decide (|p.1.ref - (compare.getD j default).close| / p.1.ref < t)))

/-- `close_days` with its guard: `data.index.equals(surviving_days.index)`
decides between `raise ValueError(...)` and returning the close matrix.
Row tables carry their pandas index labels explicitly. -/
def closeDaysChecked (dataIndex : List Nat) (rows : List Ext)
    (survIndex : List Nat) (surv : List (List Bool)) (compare : List Bar)
    (t : Rat) (r : Bool) : Except String (List (List Bool)) :=
  if dataIndex = survIndex then
    Except.ok (closeMatrix rows surv compare t)
  else
    Except.error "surviving_days index does not match data.index"

/-- Claim C9: `close_days` errors iff the extremum table's index is not
exactly the paired alive matrix's index; when the indices match it returns
the close matrix (note the `resistances` flag does not influence the
returned matrix — it only feeds the unused extremum filter). -/
theorem close_days_error_iff (dataIndex survIndex : List Nat) (rows : List Ext)
    (surv : List (List Bool)) (compare : List Bar) (t : Rat) (r : Bool) :
    ((∃ msg, closeDaysChecked dataIndex rows survIndex surv compare t r =
        Except.error msg) ↔ dataIndex ≠ survIndex) ∧
    (dataIndex = survIndex →
      closeDaysChecked dataIndex rows survIndex surv compare t r =
        Except.ok (closeMatrix rows surv compare t)) := by
  unfold closeDaysChecked
  by_cases h : dataIndex = survIndex <;> simp [h]

/-- Witness for C9: a mismatching index pair errors; a matching one
returns the close matrix. -/
theorem close_days_error_iff_witness :
    (∃ msg, closeDaysChecked [0] [⟨1, 8⟩] [1] [[true]] exBarsA (1/100) false =
      Except.error msg) ∧
    closeDaysChecked [0] [⟨1, 8⟩] [0] [[true]] exBarsA (1/100) false =
      Except.ok (closeMatrix [⟨1, 8⟩] [[true]] exBarsA (1/100)) :=
  ⟨(close_days_error_iff [0] [1] [⟨1, 8⟩] [[true]] exBarsA (1/100) false).1.mpr
      (by decide),
   (close_days_error_iff [0] [0] [⟨1, 8⟩] [[true]] exBarsA (1/100) false).2 rfl⟩

/-- The support row (date and `low`) built from data position `i`. -/
def supExtAt (data : List Bar) (i : Nat) : Ext :=
  ⟨(data.getD i default).date, (data.getD i default).low⟩

/-- The resistance row (date and `high`) built from data position `i`. -/
def resExtAt (data : List Bar) (i : Nat) : Ext :=
  ⟨(data.getD i default).date, (data.getD i default).high⟩

/-- The original supports whose breach day is column `j`: one `groupby`
group of `sup.assign(breakers = sbreakers).groupby("breakers")`, in the
row order of the support table. -/
def supBreachedAt (data : List Bar) (t : Rat) (j : Nat) : List Nat :=
  (supIdxs data).filter
    (fun i => decide (breaker (supExtAt data i) data t false = some j))

/-- The original resistances whose breach day is column `j`. -/
def resBreachedAt (data : List Bar) (t : Rat) (j : Nat) : List Nat :=
  (resIdxs data).filter
    (fun i => decide (breaker (resExtAt data i) data t true = some j))

/-- pandas `idxmin`: the first element attaining the minimum of `f`. -/
def argminFirst (f : Nat → Rat) : List Nat → Option Nat
  | [] => none
  | x :: xs => some (xs.foldl (fun best y => if f y < f best then y else best) x)

/-- pandas `idxmax`: the first element attaining the maximum of `f`. -/
def argmaxFirst (f : Nat → Rat) : List Nat → Option Nat
  | [] => none
  | x :: xs => some (xs.foldl (fun best y => if f best < f y then y else best) x)

/-- The derived (second-generation) resistance created at breach day `j`:
`groupby("breakers")["low"].agg("idxmin")` then `.drop(res.index)`, the
new `high` value being the chosen support's `low`.  Returns the chosen
support position and that value. -/
def derivedResistanceAt (data : List Bar) (t : Rat) (j : Nat) : Option (Nat × Rat) :=
  if j ∈ resIdxs data then none
  else (argminFirst (fun i => (data.getD i default).low) (supBreachedAt data t j)).map
    (fun i => (i, (data.getD i default).low))

/-- The derived (second-generation) support created at breach day `j`:
`groupby("breakers")["high"].agg("idxmax")` then `.drop(sup.index)`, the
new `low` value being the chosen resistance's `high`. -/
def derivedSupportAt (data : List Bar) (t : Rat) (j : Nat) : Option (Nat × Rat) :=
  if j ∈ supIdxs data then none
  else (argmaxFirst (fun i => (data.getD i default).high) (resBreachedAt data t j)).map
    (fun i => (i, (data.getD i default).high))

theorem foldl_min_mem_le (f : Nat → Rat) (xs : List Nat) (x : Nat) :
    (xs.foldl (fun best y => if f y < f best then y else best) x) ∈ x :: xs ∧
    ∀ y ∈ x :: xs,
      f (xs.foldl (fun best y => if f y < f best then y else best) x) ≤ f y := by
  induction xs generalizing x with
  | nil => simp
  | cons z zs ih =>
    rw [List.foldl_cons]
    by_cases hc : f z < f x
    · rw [if_pos hc]
      obtain ⟨hmem, hle⟩ := ih z
      refine ⟨List.mem_cons_of_mem x hmem, ?_⟩
      intro y hy
      rcases List.mem_cons.mp hy with rfl | hy'
      · exact le_trans (hle z (List.mem_cons_self z zs)) (le_of_lt hc)
      · exact hle y hy'
    · rw [if_neg hc]
      obtain ⟨hmem, hle⟩ := ih x
      refine ⟨?_, ?_⟩
      · rcases List.mem_cons.mp hmem with h | h
        · exact List.mem_cons.mpr (Or.inl h)
        · exact List.mem_cons_of_mem x (List.mem_cons_of_mem z h)
      · intro y hy
        rcases List.mem_cons.mp hy with rfl | hy'
        · exact hle y (List.mem_cons_self y zs)
        · rcases List.mem_cons.mp hy' with rfl | hy''
          · exact le_trans (hle x (List.mem_cons_self x zs)) (not_lt.mp hc)
          · exact hle y (List.mem_cons_of_mem x hy'')

theorem foldl_max_mem_le (f : Nat → Rat) (xs : List Nat) (x : Nat) :
    (xs.foldl (fun best y => if f best < f y then y else best) x) ∈ x :: xs ∧
    ∀ y ∈ x :: xs,
      f y ≤ f (xs.foldl (fun best y => if f best < f y then y else best) x) := by
  induction xs generalizing x with
  | nil => simp
  | cons z zs ih =>
    rw [List.foldl_cons]
    by_cases hc : f x < f z
    · rw [if_pos hc]
      obtain ⟨hmem, hle⟩ := ih z
      refine ⟨List.mem_cons_of_mem x hmem, ?_⟩
      intro y hy
      rcases List.mem_cons.mp hy with rfl | hy'
      · exact le_trans (le_of_lt hc) (hle z (List.mem_cons_self z zs))
      · exact hle y hy'
    · rw [if_neg hc]
      obtain ⟨hmem, hle⟩ := ih x
      refine ⟨?_, ?_⟩
      · rcases List.mem_cons.mp hmem with h | h
        · exact List.mem_cons.mpr (Or.inl h)
        · exact List.mem_cons_of_mem x (List.mem_cons_of_mem z h)
      · intro y hy
        rcases List.mem_cons.mp hy with rfl | hy'
        · exact hle y (List.mem_cons_self y zs)
        · rcases List.mem_cons.mp hy' with rfl | hy''
          · exact le_trans (not_lt.mp hc) (hle x (List.mem_cons_self x zs))
          · exact hle y (List.mem_cons_of_mem x hy'')

/-- Claim C5 (amended): for a breach day `j` that is *not* already a
candidate of the target polarity, exactly one derived candidate is
created (the `Option` is `some`), carrying the most extreme reference
value among the extrema broken that day — the lowest `low` of the breached
supports, the highest `high` of the breached resistances; if `j` already
is a candidate of the target polarity, no derived candidate is created. -/
theorem role_flip_most_extreme (data : List Bar) (t : Rat) (j : Nat) :
    (supBreachedAt data t j ≠ [] → j ∉ resIdxs data →
      ∃ i, derivedResistanceAt data t j = some (i, (data.getD i default).low) ∧
        i ∈ supBreachedAt data t j ∧
        ∀ i' ∈ supBreachedAt data t j,
          (data.getD i default).low ≤ (data.getD i' default).low) ∧
    (resBreachedAt data t j ≠ [] → j ∉ supIdxs data →
      ∃ i, derivedSupportAt data t j = some (i, (data.getD i default).high) ∧
        i ∈ resBreachedAt data t j ∧
        ∀ i' ∈ resBreachedAt data t j,
          (data.getD i' default).high ≤ (data.getD i default).high) := by
  constructor
  · intro hne hnotres
    unfold derivedResistanceAt
    rw [if_neg hnotres]
    match hl : supBreachedAt data t j, hne with
    | x :: xs, _ =>
      obtain ⟨hmem, hle⟩ := foldl_min_mem_le (fun i => (data.getD i default).low) xs x
      exact ⟨_, rfl, hmem, hle⟩
  · intro hne hnotsup
    unfold derivedSupportAt
    rw [if_neg hnotsup]
    match hl : resBreachedAt data t j, hne with
    | x :: xs, _ =>
      obtain ⟨hmem, hle⟩ := foldl_max_mem_le (fun i => (data.getD i default).high) xs x
      exact ⟨_, rfl, hmem, hle⟩

/-- Example series for the role flip: day 5 first-breaches both supports
(day 1, low 8) and (day 3, low 81/10), and day 5 is not a resistance
candidate, so one derived resistance with value 8 (the lowest) appears. -/
def exBarsE : List Bar :=
  [⟨0, 10, 11, 21/2, 1⟩, ⟨1, 8, 9, 17/2, 1⟩, ⟨2, 9, 10, 19/2, 1⟩,
   ⟨3, 81/10, 9, 43/5, 1⟩, ⟨4, 9, 10, 19/2, 1⟩, ⟨5, 5, 11, 11/2, 1⟩]

unseal Rat.inv Rat.mul Rat.sub Rat.add in
/-- Witness for the amended C5, on `exBarsE` at breach day 5 (two breached
supports with lows 8 and 81/10; the derived resistance takes the lowest). -/
theorem role_flip_most_extreme_witness :
    ∃ i, derivedResistanceAt exBarsE (1/100) 5 =
        some (i, (exBarsE.getD i default).low) ∧
      i ∈ supBreachedAt exBarsE (1/100) 5 ∧
      ∀ i' ∈ supBreachedAt exBarsE (1/100) 5,
        (exBarsE.getD i default).low ≤ (exBarsE.getD i' default).low :=
  (role_flip_most_extreme exBarsE (1/100) 5).1 (by decide) (by decide)

/-- Example series where one day first-breaches two supports *and* is
itself a resistance candidate: lows `10, 8, 9, 81/10, 9, 5, 6`, highs with
a local maximum at position 5. -/
def exBarsD : List Bar :=
  [⟨0, 10, 11, 21/2, 1⟩, ⟨1, 8, 9, 17/2, 1⟩, ⟨2, 9, 10, 19/2, 1⟩,
   ⟨3, 81/10, 9, 43/5, 1⟩, ⟨4, 9, 10, 19/2, 1⟩, ⟨5, 5, 20, 11/2, 1⟩,
   ⟨6, 6, 10, 6, 1⟩]

unseal Rat.inv Rat.mul Rat.sub Rat.add in
/-- Counterexample to C5 as stated: in `exBarsD`, day 5 is the breach day
of the two supports at positions 1 and 3, yet *no* derived resistance is
created for it (zero, not exactly one), because day 5 is itself an
original resistance candidate and is dropped. -/
theorem no_derived_candidate_on_target_polarity_day :
    supBreachedAt exBarsD (1/100) 5 = [1, 3] ∧
    5 ∈ resIdxs exBarsD ∧
    derivedResistanceAt exBarsD (1/100) 5 = none := by decide

/-- Claim C6 (amended): a derived candidate never shares its day with an
original candidate of the *same* (target) polarity: derived resistances
avoid original-resistance days, derived supports avoid original-support
days.  (Sharing a day with the *opposite* polarity is possible, see the
counterexample.) -/
theorem derived_disjoint_same_polarity (data : List Bar) (t : Rat) (j : Nat) :
    (derivedResistanceAt data t j ≠ none → j ∉ resIdxs data) ∧
    (derivedSupportAt data t j ≠ none → j ∉ supIdxs data) := by
  constructor
  · intro h
    by_contra hmem
    exact h (by unfold derivedResistanceAt; rw [if_pos hmem])
  · intro h
    by_contra hmem
    exact h (by unfold derivedSupportAt; rw [if_pos hmem])

unseal Rat.inv Rat.mul Rat.sub Rat.add in
/-- Witness for the amended C6: on `exBarsE`, the derived resistance of
day 5 exists, so day 5 is not an original resistance day. -/
theorem derived_disjoint_same_polarity_witness :
    5 ∉ resIdxs exBarsE :=
  (derived_disjoint_same_polarity exBarsE (1/100) 5).1 (by decide)

/-- Example series in which an original support day becomes a derived
resistance day: day 3 (an original support, low 5) first-breaches the
day-1 support of value 8; it is not a resistance candidate, so the role
flip creates a derived resistance on day 3 with value 8. -/
def exBarsF : List Bar :=
  [⟨0, 10, 11, 21/2, 1⟩, ⟨1, 8, 9, 17/2, 1⟩, ⟨2, 9, 10, 19/2, 1⟩,
   ⟨3, 5, 6, 11/2, 1⟩, ⟨4, 6, 7, 13/2, 1⟩]

unseal Rat.inv Rat.mul Rat.sub Rat.add in
/-- Counterexample to C6 as stated: in `exBarsF`, day 3 is an original
support candidate *and* carries a derived resistance (value 8) — the
dedup drops only coincidences with the target polarity, so a bar can be
both an original support and a derived resistance. -/
theorem original_support_becomes_derived_resistance :
    3 ∈ supIdxs exBarsF ∧
    derivedResistanceAt exBarsF (1/100) 3 = some (1, 8) := by decide

/-- One row of the `info` table handed to the daily projector
(`sup`/`res` from `get_supports_resistances`): the columns the projector
reads are the reference values and the volume. -/
structure InfoRow where
  date : Int
  low : Rat
  high : Rat
  volume : Rat
deriving Repr, DecidableEq

instance : Inhabited InfoRow := ⟨⟨0, 0, 0, 0⟩⟩

/-- The `sup_*` record emitted by `get_closest_support` for one bar. -/
structure SupRecord where
  sup_val : Rat
  sup_vol : Rat
  sup_age : Nat
  sup_close : Nat
deriving Repr, DecidableEq

/-- The `res_*` record emitted by `get_closest_resitances` for one bar. -/
structure ResRecord where
  res_val : Rat
  res_vol : Rat
  res_age : Nat
  res_close : Nat
deriving Repr, DecidableEq

/-- `info[comp[x.name]]`: the (positions of the) info rows whose alive
column at bar `j` is true. -/
def aliveCandidates (j : Nat) (info : List InfoRow) (comp : List (List Bool)) :
    List Nat :=
  (List.range info.length).filter (fun i => (comp.getD i []).getD j false)

/-- `((candidates[col] - x["close"])/x["close"]).abs().idxmin()`: the
first candidate minimising the normalised absolute distance of `f` to the
bar's close; `none` when `candidates.empty`. -/
def selClosest (f : InfoRow → Rat) (xclose : Rat) (j : Nat)
    (info : List InfoRow) (comp : List (List Bool)) : Option Nat :=
  argminFirst (fun i => |((f (info.getD i default)) - xclose) / xclose|)
    (aliveCandidates j info comp)

/-- `get_closest_support` for the bar at position `j` with close `xclose`:
sentinel `{sup_val: 0, sup_vol: -1, sup_age: 0, sup_close: 0}` when no
candidate is alive; otherwise the chosen support's `low` and `volume`,
`age = comp.loc[id_, :x.name].shape[0]` (the positional length of the row
slice through bar `j`), and `sup_close` the number of close-matrix `True`s
in the same slice. -/
def getClosestSupport (xclose : Rat) (j : Nat) (info : List InfoRow)
    (comp close : List (List Bool)) : SupRecord :=
  match selClosest (fun rw => rw.low) xclose j info comp with
  | none => ⟨0, -1, 0, 0⟩
  | some i =>
      ⟨(info.getD i default).low, (info.getD i default).volume,
        ((comp.getD i []).take (j+1)).length,
        ((close.getD i []).take (j+1)).count true⟩

/-- `get_closest_resitances`: sentinel
`{res_val: 2*close, res_vol: -1, res_age: 0, res_close: 0}` when no
candidate is alive; otherwise analogous to the support case on `high`. -/
def getClosestResistances (xclose : Rat) (j : Nat) (info : List InfoRow)
    (comp close : List (List Bool)) : ResRecord :=
  match selClosest (fun rw => rw.high) xclose j info comp with
  | none => ⟨2 * xclose, -1, 0, 0⟩
  | some i =>
      ⟨(info.getD i default).high, (info.getD i default).volume,
        ((comp.getD i []).take (j+1)).length,
        ((close.getD i []).take (j+1)).count true⟩

theorem aliveCandidates_nil (j : Nat) (info : List InfoRow)
    (comp : List (List Bool))
    (h : ∀ i, i < info.length → (comp.getD i []).getD j false = false) :
    aliveCandidates j info comp = [] := by
  unfold aliveCandidates
  rw [List.filter_eq_nil_iff]
  intro i hi
  rw [List.mem_range] at hi
  simp only [Bool.not_eq_true]
  exact h i hi

/-- Claim C8: if no support is active at a bar, the emitted record is
exactly `(0, -1, 0, 0)`; if no resistance is active, it is exactly
`(2 * close, -1, 0, 0)`. -/
theorem projector_sentinels (xclose : Rat) (j : Nat) (info : List InfoRow)
    (comp close : List (List Bool))
    (h : ∀ i, i < info.length → (comp.getD i []).getD j false = false) :
    getClosestSupport xclose j info comp close = ⟨0, -1, 0, 0⟩ ∧
    getClosestResistances xclose j info comp close = ⟨2 * xclose, -1, 0, 0⟩ := by
  have hnil : aliveCandidates j info comp = [] := aliveCandidates_nil j info comp h
  constructor
  · unfold getClosestSupport selClosest
    rw [hnil]
    rfl
  · unfold getClosestResistances selClosest
    rw [hnil]
    rfl

/-- Witness for C8: one support row that is dead at bar 0 yields the two
sentinel records. -/
theorem projector_sentinels_witness :
    getClosestSupport 9 0 [⟨1, 8, 9, 1⟩] [[false, false]] [[false, false]] =
      ⟨0, -1, 0, 0⟩ ∧
    getClosestResistances 9 0 [⟨1, 8, 9, 1⟩] [[false, false]] [[false, false]] =
      ⟨2 * 9, -1, 0, 0⟩ :=
  projector_sentinels 9 0 [⟨1, 8, 9, 1⟩] [[false, false]] [[false, false]]
    (by decide)

/-- Claim C10: when a candidate is selected (at least one is alive at bar
`j`), the emitted age is `j + 1` — the positional length of the
alive-matrix row slice through bar `j` — for *any* selected row `i` whose
alive row covers bar `j`, regardless of how many entries of that row are
actually true. -/
theorem projector_age_positional (xclose : Rat) (j : Nat) (info : List InfoRow)
    (comp close : List (List Bool)) (i i' : Nat)
    (hsup : selClosest (fun rw => rw.low) xclose j info comp = some i)
    (hres : selClosest (fun rw => rw.high) xclose j info comp = some i')
    (hlen : j < (comp.getD i []).length)
    (hlen' : j < (comp.getD i' []).length) :
    (getClosestSupport xclose j info comp close).sup_age = j + 1 ∧
    (getClosestResistances xclose j info comp close).res_age = j + 1 := by
  constructor
  · unfold getClosestSupport
    rw [hsup]
    simp only [List.length_take]
    omega
  · unfold getClosestResistances
    rw [hres]
    simp only [List.length_take]
    omega

unseal Rat.inv Rat.mul Rat.sub Rat.add in
/-- Witness for C10: the single candidate is alive only on bar 2, yet the
emitted age at bar 2 is 3 (the full positional slice length), not its
actual alive-day count 1. -/
theorem projector_age_positional_witness :
    (getClosestSupport 8 2 [⟨1, 8, 9, 1⟩] [[false, false, true]]
      [[false, false, false]]).sup_age = 3 ∧
    (getClosestResistances 8 2 [⟨1, 8, 9, 1⟩] [[false, false, true]]
      [[false, false, false]]).res_age = 3 :=
  projector_age_positional 8 2 [⟨1, 8, 9, 1⟩] [[false, false, true]]
    [[false, false, false]] 0 0 (by decide) (by decide) (by decide) (by decide)

unseal Rat.inv Rat.mul Rat.sub Rat.add in
/-- Witness for the amended C1: day 2 of `exBarsA` is strictly later than
the day-1 support's creation and unbroken, hence alive. -/
theorem alive_age_characterisation_witness :
    aliveCell ⟨1, 8⟩ exBarsA (1/100) false 2 = true :=
  ((alive_age_characterisation ⟨1, 8⟩ exBarsA (1/100) false).1 2).mpr (by decide)

unseal Rat.inv Rat.mul Rat.sub Rat.add in
/-- Witness for the amended C2: day 2 of `exBarsC` is alive for the day-1
support and within threshold, so its close cell is true. -/
theorem close_cell_characterisation_witness :
    closeCell ⟨1, 8⟩ exBarsC (1/100) false 2 = true :=
  (close_cell_characterisation ⟨1, 8⟩ exBarsC (1/100) false 2).mpr
    ⟨⟨2, 9, 10, 161/20, 1⟩, by decide, by decide, by decide⟩

end OOOpen
